import Mathlib

/-!
Verification of the worker-pool lifecycle and event-collection subsystem of
digitalearthau (digitalearthau/runners/celery_environment.py), as a shallow
embedding in Lean.  Strings are modelled as Lean strings, or as lists of
characters where character-level reasoning is needed; machine integers and
times as Nat; Python exceptions as Except; the multiprocess pieces (the
Collector consume loop and the shutdown coordinator) as explicit step
functions over observation streams and action traces.
-/

namespace DEA

/-! ## Hostname normalization (source: just_hostname, lines 228-246)

Python str.split(sep) with no maxsplit: splits on every occurrence of the
separator, keeping empty parts. -/

def pySplit (sep : Char) : List Char → List (List Char)
  | [] => [[]]
  | c :: rest =>
    let r := pySplit sep rest
    if c = sep then [] :: r
    else
      match r with
      | [] => [[c]]
      | p :: ps => (c :: p) :: ps

/-- Shallow embedding of just_hostname (celery_environment.py lines 228-246):
returns the input when it has no at-sign, the part after the at-sign when it
has exactly one, and raises ValueError otherwise. -/
def just_hostname (hostname : List Char) : Except String (List Char) :=
  if '@' ∉ hostname then Except.ok hostname
  else
    let parts := pySplit '@' hostname
    if parts.length ≠ 2 then Except.error "Strange-looking, unsupported hostname"
    else Except.ok (parts.getLast?.getD [])

/-! ## Dataset-id extraction (source: extract_task_args_dataset_id, lines 51-64)

The source searches the stringified task kwargs with the regular expression
Dataset <id=([a-z0-9-]\x7b36\x7d) - a literal marker, then exactly 36
characters from the class a-z, 0-9, hyphen, then a space - and feeds the
captured group to the Python uuid.UUID constructor, which strips hyphens,
requires exactly 32 remaining characters, and parses them as hexadecimal. -/

def datasetMarker : List Char := "Dataset <id=".toList

def taskIdChar (c : Char) : Bool :=
  ('a' ≤ c && c ≤ 'z') || ('0' ≤ c && c ≤ '9') || c == '-'

/-- Whether the fixed-shape regular expression matches at the head of the
input: the literal marker, then 36 class characters, then a space. -/
def matchHere (s : List Char) : Option (List Char) :=
  if datasetMarker.isPrefixOf s then
    let rest := s.drop datasetMarker.length
    let g := rest.take 36
    if g.length = 36 && g.all taskIdChar && rest.get? 36 == some ' ' then some g
    else none
  else none

/-- Leftmost-match regular-expression search, as Python re.search: try each
start position left to right. -/
def reSearch : List Char → Option (List Char)
  | [] => none
  | c :: t =>
    match matchHere (c :: t) with
    | some g => some g
    | none => reSearch t

def pyHexDigit (c : Char) : Bool :=
  ('0' ≤ c && c ≤ '9') || ('a' ≤ c && c ≤ 'f') || ('A' ≤ c && c ≤ 'F')

/-- The hyphen-removal step of the uuid.UUID constructor. -/
def stripHyphens (g : List Char) : List Char :=
  g.filter (fun c => !(c == '-'))

/-- The Python uuid.UUID string constructor, restricted to inputs drawn from
the regex character class (so the urn:, uuid: and brace stripping steps are
no-ops): remove hyphens, require 32 characters, require all hexadecimal. -/
def pyUUID (g : List Char) : Except String (List Char) :=
  let hex := stripHyphens g
  if hex.length ≠ 32 then Except.error "badly formed hexadecimal UUID string"
  else if hex.all pyHexDigit then Except.ok hex
  else Except.error "invalid literal for int with base 16"

/-- Shallow embedding of extract_task_args_dataset_id (lines 54-64): regex
search, None on no match, otherwise uuid.UUID on the captured group. -/
def extract_task_args_dataset_id (kwargs : List Char) :
    Except String (Option (List Char)) :=
  match reSearch kwargs with
  | none => Except.ok none
  | some g => (pyUUID g).map some

/-! ## Event normalization (source: celery_event_to_task, lines 71-123) -/

/-- Modelled from the spec: the Status enum of digitalearthau.events (its
module is not part of the sources at hand), a plain Python Enum with the
five members named in the data model; every member is truthy. -/
inductive Status where
  | PENDING
  | ACTIVE
  | COMPLETE
  | FAILED
  | CANCELLED
deriving DecidableEq, Repr

def statusName : Status → String
  | Status.PENDING => "PENDING"
  | Status.ACTIVE => "ACTIVE"
  | Status.COMPLETE => "COMPLETE"
  | Status.FAILED => "FAILED"
  | Status.CANCELLED => "CANCELLED"

/-- Modelled from the spec: the NodeMessage record of digitalearthau.events
(hostname plus process id of the worker). -/
structure NodeMessage where
  hostname : List Char
  pid : Nat
deriving DecidableEq, Repr

/-- Modelled from the spec: the TaskEvent record of digitalearthau.events,
with the fields the source constructor passes (section 3 of the spec). -/
structure TaskEvent where
  timestamp : Nat
  event : String
  name : String
  user : String
  status : Status
  id : String
  parent_id : Option String
  message : Option String
  input_datasets : Option (List (List Char))
  output_datasets : Option (List (List Char))
  node : NodeMessage
deriving DecidableEq, Repr

/-- The relevant fields of a celery.events.state.Task record as the source
reads them: raw state, traceback, stringified kwargs, timestamp, id, and the
worker record (hostname, pid). -/
structure CeleryTask where
  state : Option String
  traceback : Option String
  kwargs : List Char
  timestamp : Option Nat
  id : String
  workerHostname : List Char
  workerPid : Nat
deriving DecidableEq, Repr

/-- Python truthiness of an optional string: None and the empty string are
falsy. -/
def pyTruthyStr : Option String → Bool
  | none => false
  | some s => !(s == "")

/-- The celery_statemap dictionary (lines 81-94), keyed by the celery.states
string constants. -/
def celery_statemap (s : String) : Option Status :=
  if s = "PENDING" then some Status.PENDING
  else if s = "RECEIVED" then some Status.PENDING
  else if s = "STARTED" then some Status.ACTIVE
  else if s = "SUCCESS" then some Status.COMPLETE
  else if s = "FAILURE" then some Status.FAILED
  else if s = "REVOKED" then some Status.CANCELLED
  else if s = "REJECTED" then some Status.CANCELLED
  else if s = "RETRY" then some Status.PENDING
  else if s = "IGNORED" then some Status.PENDING
  else none

/-- Shallow embedding of celery_event_to_task (lines 71-123).  External
inputs of the source are parameters: the task name, the user, the current
UTC time (datetime.utcnow), and pbs.current_job_task_id.

Two points of fidelity to the source:
- line 95 tests Python truthiness of task.state, so a missing state and an
  empty-string state both return None;
- line 103 reads if status.FAILED: - attribute access on a member falls
  back to the enum class, yielding the always-truthy FAILED member, so the
  branch body runs for every status and message is always set from the
  traceback. -/
def celery_event_to_task (name : String) (task : CeleryTask) (user : String)
    (now : Nat) (parentId : Option String) : Except String (Option TaskEvent) :=
  if pyTruthyStr task.state = false then Except.ok none
  else
    match celery_statemap (task.state.getD "") with
    | none => Except.error ("Unknown celery state " ++ task.state.getD "")
    | some status =>
      let message := task.traceback
      match extract_task_args_dataset_id task.kwargs with
      | Except.error e => Except.error e
      | Except.ok dataset_id =>
        match just_hostname task.workerHostname with
        | Except.error e => Except.error e
        | Except.ok host =>
          Except.ok (some {
            timestamp :=
              match task.timestamp with
              | some t => if t ≠ 0 then t else now
              | none => now
            event := "task." ++ (statusName status).toLower
            name := name
            user := user
            status := status
            id := task.id
            parent_id := parentId
            message := message
            input_datasets :=
              match dataset_id with
              | some d => some [d]
              | none => none
            output_datasets := none
            node := { hostname := host, pid := task.workerPid } })

/-! ## The Collector consume loop (source: log_celery_tasks, lines 172-195)

Each iteration of the while-True loop consumes events for up to the 5 second
idle timeout and then performs the shutdown check of lines 182-193.  One
iteration is modelled by what the check observes: the shared flag, the count
of workers marked active in the in-memory state, and the wall-clock time. -/

structure LoopObs where
  shouldShutdown : Bool
  activeWorkers : Nat
  now : Nat
deriving DecidableEq, Repr

/-- One execution of the flag check of lines 182-193, carrying the
shutdown_received variable: returns the updated shutdown_received and
whether the loop breaks this iteration. -/
def collectorCheck (sr : Option Nat) (o : LoopObs) : Option Nat × Bool :=
  if o.shouldShutdown then
    if o.activeWorkers = 0 then (sr, true)
    else
      let sr2 := sr.getD o.now
      (some sr2, decide (60 < o.now - sr2))
  else (sr, false)

/-- The value of shutdown_received entering iteration n, over a stream of
per-iteration observations (initialized to None at line 170). -/
def srSeq (obs : Nat → LoopObs) : Nat → Option Nat
  | 0 => none
  | n + 1 => (collectorCheck (srSeq obs n) (obs n)).1

/-- Whether the loop breaks at iteration n. -/
def exitsB (obs : Nat → LoopObs) (n : Nat) : Bool :=
  (collectorCheck (srSeq obs n) (obs n)).2

/-! ## The shutdown coordinator (source: shutdown, lines 290-307)

The shutdown callable is straight-line Python with no exception handler:
signal the workers through the broker, wait on each spawned worker process,
set the shared flag, join the collector process, stop redis.  It is
modelled as the sequence of actions it attempts, executed under an
environment stating which steps raise; sequential Python semantics stop at
the first raising step. -/

inductive ShutdownStep where
  | signalWorkers
  | waitWorker (i : Nat)
  | setShutdownFlag
  | joinCollector
  | stopBroker
deriving DecidableEq, Repr

/-- The statement sequence of the shutdown callable for k spawned worker
processes, in source order. -/
def shutdownSteps (k : Nat) : List ShutdownStep :=
  ShutdownStep.signalWorkers ::
    ((List.range k).map ShutdownStep.waitWorker ++
      [ShutdownStep.setShutdownFlag, ShutdownStep.joinCollector,
        ShutdownStep.stopBroker])

/-- Sequential execution without any exception handler: each step is
attempted in order; a raising step ends the execution (it appears in the
trace as the last attempted step, and the Bool records whether the whole
body completed). -/
def runSteps (fails : ShutdownStep → Bool) : List ShutdownStep → List ShutdownStep × Bool
  | [] => ([], true)
  | a :: rest =>
    if fails a then ([a], false)
    else
      let r := runSteps fails rest
      (a :: r.1, r.2)

/-- The shutdown callable of lines 293-307 for k worker processes, under a
given raising environment. -/
def shutdown (k : Nat) (fails : ShutdownStep → Bool) : List ShutdownStep × Bool :=
  runSteps fails (shutdownSteps k)

/-! ## Worker fleet launch and broker health check
(source: launch_celery_worker_environment, lines 251-288) -/

/-- The fields of a pbs node descriptor the source reads. -/
structure PbsNode where
  num_cores : Nat
  is_main : Bool
  offset : Nat
deriving DecidableEq, Repr

/-- The per-node process count of lines 280-282: the node core count, or
max(1, cores - 2) on the node hosting the coordinator.  (Python max(1, n-2)
on ints coincides with Nat truncated subtraction under the outer max.) -/
def node_nprocs (node : PbsNode) : Nat :=
  if node.is_main then max 1 (node.num_cores - 2) else node.num_cores

/-- The worker-spawn loop of lines 279-288: one pbsdsh invocation per node,
recorded as (node offset, nprocs passed to datacube-worker). -/
def launch_worker_procs (nodes : List PbsNode) : List (Nat × Nat) :=
  nodes.map (fun node => (node.offset, node_nprocs node))

/-- The number of 0.5 second sleeps the health loop of lines 262-264
performs over its first n iterations: one per check that returned False. -/
def redisHealthSleeps (check : Nat → Bool) : Nat → Nat
  | 0 => 0
  | n + 1 => redisHealthSleeps check n + (if check n = false then 1 else 0)

/-- Outcome of the broker-startup phase of lines 256-270: how many health
sleeps ran, and whether the CeleryExecutor was constructed. -/
structure BrokerLaunch where
  sleeps : Nat
  executorReturned : Bool
deriving DecidableEq, Repr

/-- Shallow embedding of the broker-startup phase of
launch_celery_worker_environment (lines 256-270): raise when launch_redis
returns a falsy shutdown handle; otherwise run the bounded health loop
(range 5, sleeping 0.5 s after each failed check, with no other effect) and
construct the executor unconditionally. -/
def launch_broker_phase (redisLaunched : Bool) (check : Nat → Bool) :
    Except String BrokerLaunch :=
  if redisLaunched = false then Except.error "Failed to launch Redis"
  else Except.ok { sleeps := redisHealthSleeps check 5, executorReturned := true }

/-! ## The per-event handler (source: handle_task, lines 141-159)

The broker-state tracker (celery events State) is external library state;
it is abstracted as a state type with an update function (state.event) and
a task lookup (state.tasks.get), both parameters of the handler. -/

structure CeleryRawEvent where
  type : List Char
  uuid : String
deriving DecidableEq, Repr

/-- Python str.startswith over the character sequence. -/
def pyStartsWith (s pre : List Char) : Bool := pre.isPrefixOf s

/-- What one call of handle_task does besides updating the tracker state:
skip a non-task event (line 147), warn on an unknown task id (line 155), or
write the normalized event (line 158). -/
inductive HandleOutcome where
  | skippedNonTask
  | unknownTask
  | wrote (r : Except String (Option TaskEvent))

/-- Shallow embedding of handle_task (lines 141-159): the tracker update
state.event(event) runs first on every event; only then is the event type
filtered, the task looked up in the updated tracker, and the normalized
event written. -/
def handle_task {σ : Type} (stateEvent : σ → CeleryRawEvent → σ)
    (getTask : σ → String → Option CeleryTask)
    (name user : String) (now : Nat) (parentId : Option String)
    (st : σ) (e : CeleryRawEvent) : σ × HandleOutcome :=
  let st1 := stateEvent st e
  if !(pyStartsWith e.type "task-".toList) then (st1, HandleOutcome.skippedNonTask)
  else
    match getTask st1 e.uuid with
    | none => (st1, HandleOutcome.unknownTask)
    | some task =>
      (st1, HandleOutcome.wrote (celery_event_to_task name task user now parentId))

/-- The receiver dispatching a list of events through handle_task in order
(the handlers table of line 166 routes every event type to handle_task). -/
def processEvents {σ : Type} (stateEvent : σ → CeleryRawEvent → σ)
    (getTask : σ → String → Option CeleryTask)
    (name user : String) (now : Nat) (parentId : Option String)
    (st : σ) : List CeleryRawEvent → σ × List HandleOutcome
  | [] => (st, [])
  | e :: rest =>
    let r := handle_task stateEvent getTask name user now parentId st e
    let rr := processEvents stateEvent getTask name user now parentId r.1 rest
    (rr.1, r.2 :: rr.2)

/-! ## Concrete inputs used by counterexamples and witnesses -/

/-- A task whose raw state is in the lookup table but whose worker hostname
holds two at-signs. -/
def inTableBadHostTask : CeleryTask :=
  { state := some "SUCCESS"
    traceback := none
    kwargs := "no match".toList
    timestamp := some 1
    id := "t1"
    workerHostname := "a@b@c".toList
    workerPid := 7 }

/-- A well-formed task in the STARTED state. -/
def startedTask : CeleryTask :=
  { state := some "STARTED"
    traceback := none
    kwargs := "no match".toList
    timestamp := some 1
    id := "t2"
    workerHostname := "kveikur.local".toList
    workerPid := 3 }

/-- A well-formed task in the SUCCESS state that carries a traceback. -/
def succeededTaskWithTraceback : CeleryTask :=
  { state := some "SUCCESS"
    traceback := some "Traceback boom"
    kwargs := "no match".toList
    timestamp := some 1
    id := "t3"
    workerHostname := "hosta".toList
    workerPid := 2 }

/-- A kwargs string whose regex match is 36 characters of the class that do
not form a valid UUID (36 letters g, no hyphen to strip). -/
def badUuidKwargs : List Char :=
  datasetMarker ++ (List.replicate 36 'g' ++ ' ' :: [])

/-! # Theorems -/

/-! ## Auxiliary lemmas about pySplit -/

theorem pySplit_ne_nil (sep : Char) (l : List Char) : pySplit sep l ≠ [] := by
  induction l with
  | nil => simp [pySplit]
  | cons c rest ih =>
    simp only [pySplit]
    by_cases h : c = sep
    · simp [h]
    · simp only [if_neg h]
      cases hr : pySplit sep rest with
      | nil => exact absurd hr ih
      | cons p ps => simp

theorem pySplit_length (sep : Char) (l : List Char) :
    (pySplit sep l).length = l.count sep + 1 := by
  induction l with
  | nil => simp [pySplit]
  | cons c rest ih =>
    simp only [pySplit]
    by_cases h : c = sep
    · simp [h, List.count_cons, ih]
    · simp only [if_neg h]
      cases hr : pySplit sep rest with
      | nil => exact absurd hr (pySplit_ne_nil sep rest)
      | cons p ps =>
        have : (pySplit sep rest).length = (p :: ps).length := by rw [hr]
        simp only [List.length_cons] at this ⊢
        rw [List.count_cons]
        simp only [ih] at this
        have hne : (c == sep) = false := by simp [h]
        simp [hne]
        omega

theorem pySplit_of_not_mem (sep : Char) (l : List Char) (h : sep ∉ l) :
    pySplit sep l = [l] := by
  induction l with
  | nil => simp [pySplit]
  | cons c rest ih =>
    simp only [List.mem_cons, not_or] at h
    have hc : ¬ c = sep := fun hc => h.1 hc.symm
    have hr := ih h.2
    simp [pySplit, if_neg hc, hr]

theorem pySplit_single_sep (a b : List Char) (ha : '@' ∉ a) (hb : '@' ∉ b) :
    pySplit '@' (a ++ '@' :: b) = [a, b] := by
  induction a with
  | nil => simp [pySplit, pySplit_of_not_mem '@' b hb]
  | cons c a2 ih =>
    simp only [List.mem_cons, not_or] at ha
    have hc : ¬ c = '@' := fun hc => ha.1 hc.symm
    have hr := ih ha.2
    simp [pySplit, if_neg hc, hr]

/-- C9: hostname normalization returns a hostname with zero at-signs
unchanged, returns the substring after the at-sign when there is exactly
one, and raises an error when there are two or more. -/
theorem just_hostname_cases :
    (∀ h : List Char, h.count '@' = 0 → just_hostname h = Except.ok h) ∧
    (∀ a b : List Char, '@' ∉ a → '@' ∉ b →
      just_hostname (a ++ '@' :: b) = Except.ok b) ∧
    (∀ h : List Char, 2 ≤ h.count '@' →
      just_hostname h = Except.error "Strange-looking, unsupported hostname") := by
  refine ⟨?_, ?_, ?_⟩
  · intro h hc
    have : '@' ∉ h := by
      intro hmem
      have := List.count_pos_iff.mpr hmem
      omega
    simp [just_hostname, this]
  · intro a b ha hb
    have hmem : '@' ∈ a ++ '@' :: b := by simp
    have hsplit := pySplit_single_sep a b ha hb
    simp [just_hostname, hmem, hsplit]
  · intro h hc
    have hmem : '@' ∈ h := by
      by_contra hnm
      rw [List.count_eq_zero_of_not_mem hnm] at hc
      omega
    have hlen : (pySplit '@' h).length = h.count '@' + 1 := pySplit_length '@' h
    have : (pySplit '@' h).length ≠ 2 := by omega
    simp [just_hostname, hmem, this]

/-- C9 witness: the documented example with one at-sign, evaluated through
the theorem. -/
theorem just_hostname_cases_witness :
    just_hostname ("someone".toList ++ '@' :: "kveikur.local".toList) =
      Except.ok "kveikur.local".toList :=
  just_hostname_cases.2.1 "someone".toList "kveikur.local".toList
    (by decide) (by decide)

/-! ## Auxiliary lemmas about the regex search -/

theorem matchHere_nil : matchHere [] = none := by decide

theorem reSearch_of_matchHere (s : List Char) (g : List Char)
    (h : matchHere s = some g) : reSearch s = some g := by
  cases s with
  | nil => rw [matchHere_nil] at h; exact absurd h (by simp)
  | cons c t => simp [reSearch, h]

theorem matchHere_marker (u rest : List Char) (hlen : u.length = 36)
    (hcls : u.all taskIdChar = true) :
    matchHere (datasetMarker ++ (u ++ ' ' :: rest)) = some u := by
  have hpre : datasetMarker.isPrefixOf (datasetMarker ++ (u ++ ' ' :: rest)) := by
    simp [List.isPrefixOf_iff_prefix]
  have hdrop : (datasetMarker ++ (u ++ ' ' :: rest)).drop datasetMarker.length
      = u ++ ' ' :: rest := by
    simp
  have htake : (u ++ ' ' :: rest).take 36 = u := by
    rw [← hlen]
    exact List.take_left u (' ' :: rest)
  simp only [matchHere, hpre, if_true, hdrop, htake, hlen, hcls]
  have hget : (u ++ ' ' :: rest)[36]? = some ' ' := by
    rw [List.getElem?_append_right (by omega)]
    simp [hlen]
  simp [hget]

/-- C6 counterexample: the claim says dataset-id extraction never raises on
any input string, but on a kwargs string whose matched 36-character token is
not parseable as a UUID (36 letters g) the uuid.UUID constructor raises a
ValueError. -/
theorem extract_dataset_id_raises_on_bad_token :
    extract_task_args_dataset_id badUuidKwargs =
      Except.error "badly formed hexadecimal UUID string" := by rfl

/-- C6 amended: extraction of a dataset id from the stringified arguments
returns the UUID after the marker when the match parses as a UUID, returns
nothing without raising when there is no match, and raises ValueError for
every matched 36-character token that does not parse as a UUID - whether
because fewer or more than 32 characters remain after removing hyphens, or
because exactly 32 remain but some are not hexadecimal digits. -/
theorem extract_dataset_id_amended :
    (∀ s : List Char, reSearch s = none →
      extract_task_args_dataset_id s = Except.ok none) ∧
    (∀ u rest : List Char, u.length = 36 → u.all taskIdChar = true →
      reSearch (datasetMarker ++ (u ++ ' ' :: rest)) = some u) ∧
    (∀ s g : List Char, reSearch s = some g →
      (stripHyphens g).length = 32 →
      (stripHyphens g).all pyHexDigit = true →
      extract_task_args_dataset_id s = Except.ok (some (stripHyphens g))) ∧
    (∀ s g : List Char, reSearch s = some g →
      (stripHyphens g).length ≠ 32 →
      extract_task_args_dataset_id s =
        Except.error "badly formed hexadecimal UUID string") ∧
    (∀ s g : List Char, reSearch s = some g →
      (stripHyphens g).length = 32 →
      (stripHyphens g).all pyHexDigit = false →
      extract_task_args_dataset_id s =
        Except.error "invalid literal for int with base 16") := by
  refine ⟨?_, ?_, ?_, ?_, ?_⟩
  · intro s hs
    simp [extract_task_args_dataset_id, hs]
  · intro u rest hlen hcls
    exact reSearch_of_matchHere _ u (matchHere_marker u rest hlen hcls)
  · intro s g hs hlen hhex
    simp only [extract_task_args_dataset_id, hs, pyUUID]
    rw [if_neg (by omega), if_pos hhex]
    rfl
  · intro s g hs hlen
    simp only [extract_task_args_dataset_id, hs, pyUUID]
    rw [if_pos hlen]
    rfl
  · intro s g hs hlen hhex
    simp only [extract_task_args_dataset_id, hs, pyUUID]
    rw [if_neg (by omega), if_neg (by rw [hhex]; simp)]
    rfl

/-- C6 witness: the documented example UUID is found after the marker and
parses to its 32 hexadecimal digits, through the amended theorem. -/
theorem extract_dataset_id_amended_witness :
    extract_task_args_dataset_id
        (datasetMarker ++
          ("d514c26a-d98f-47f1-b0de-15f7fe78c209".toList ++ ' ' :: [])) =
      Except.ok (some "d514c26ad98f47f1b0de15f7fe78c209".toList) := by
  have hfound :=
    extract_dataset_id_amended.2.1
      "d514c26a-d98f-47f1-b0de-15f7fe78c209".toList [] (by decide) (by decide)
  have h2 := extract_dataset_id_amended.2.2.1 _ _ hfound (by decide) (by decide)
  exact h2.trans (by rfl)

/-! ## Normalization: state mapping and the message field -/

theorem celery_statemap_empty : celery_statemap "" = none := by rfl

/-- C3 counterexample: the claim says a task whose raw state is in the
lookup table yields a TaskEvent with the mapped Status, but normalization of
a SUCCESS task whose worker hostname holds two at-signs raises the hostname
ValueError instead of returning an event. -/
theorem in_table_state_can_raise :
    celery_statemap "SUCCESS" = some Status.COMPLETE ∧
    celery_event_to_task "job" inTableBadHostTask "user" 5 none =
      Except.error "Strange-looking, unsupported hostname" := ⟨rfl, rfl⟩

/-- C3 amended: normalization of a broker task record returns a TaskEvent
carrying exactly the table Status for every in-table raw state, provided
the auxiliary dataset-id extraction and hostname normalization themselves
succeed (each can raise, independently of the state); raises for every
non-empty raw state outside the table; and returns nothing, without
raising, when the raw state is absent. -/
theorem celery_event_to_task_amended (name user : String) (now : Nat)
    (pid : Option String) (task : CeleryTask) :
    (task.state = none →
      celery_event_to_task name task user now pid = Except.ok none) ∧
    (∀ s, task.state = some s → s ≠ "" → celery_statemap s = none →
      celery_event_to_task name task user now pid =
        Except.error ("Unknown celery state " ++ s)) ∧
    (∀ s st, task.state = some s → celery_statemap s = some st →
      ∀ d h2, extract_task_args_dataset_id task.kwargs = Except.ok d →
        just_hostname task.workerHostname = Except.ok h2 →
        ∃ ev, celery_event_to_task name task user now pid =
            Except.ok (some ev) ∧ ev.status = st) := by
  refine ⟨?_, ?_, ?_⟩
  · intro h
    simp [celery_event_to_task, h, pyTruthyStr]
  · intro s hst hne hmap
    have htr : pyTruthyStr task.state = true := by
      rw [hst]; simp [pyTruthyStr, hne]
    unfold celery_event_to_task
    rw [htr]
    simp [hst, hmap]
  · intro s st hst hmap d h2 hd hh
    have hne : s ≠ "" := by
      intro he
      rw [he, celery_statemap_empty] at hmap
      exact absurd hmap (by simp)
    have htr : pyTruthyStr task.state = true := by
      rw [hst]; simp [pyTruthyStr, hne]
    unfold celery_event_to_task
    rw [htr]
    simp only [Bool.true_eq_false, if_false, hst, Option.getD_some, hmap, hd, hh]
    exact ⟨_, rfl, rfl⟩

/-- C3 witness: a STARTED task with well-formed hostname and arguments
normalizes to an event with status ACTIVE, through the amended theorem. -/
theorem celery_event_to_task_amended_witness :
    ∃ ev, celery_event_to_task "job" startedTask "user" 5 none =
        Except.ok (some ev) ∧ ev.status = Status.ACTIVE :=
  (celery_event_to_task_amended "job" "user" 5 none startedTask).2.2
    "STARTED" Status.ACTIVE rfl rfl none "kveikur.local".toList rfl rfl

/-- C4: the source line 103 reads if status.FAILED: instead of comparing
status against FAILED, and the attribute access yields the always-truthy
FAILED member; consequently the message field is populated from the raw
traceback for every status, not only for FAILED.  At the failing input - a
SUCCESS task carrying a traceback - the normalized event has status
COMPLETE and yet a populated message, where the claim requires message to
be absent. -/
theorem message_populated_for_non_failed :
    ∃ ev, celery_event_to_task "job" succeededTaskWithTraceback "user" 5 none =
        Except.ok (some ev) ∧
      ev.status = Status.COMPLETE ∧ ev.message = some "Traceback boom" :=
  ⟨_, rfl, rfl, rfl⟩

/-! ## The Collector consume loop -/

/-- Once the flag has been observed true with workers still active at
iteration 0, shutdown_received stays fixed at the time of that first
observation. -/
theorem collector_srSeq_const (obs : Nat → LoopObs)
    (hflag : ∀ n, (obs n).shouldShutdown = true)
    (hact : (obs 0).activeWorkers ≠ 0) :
    ∀ n, srSeq obs (n + 1) = some (obs 0).now := by
  intro n
  induction n with
  | zero =>
    show (collectorCheck (srSeq obs 0) (obs 0)).1 = _
    simp [srSeq, collectorCheck, hflag 0, hact]
  | succ m ih =>
    show (collectorCheck (srSeq obs (m + 1)) (obs (m + 1))).1 = _
    rw [ih]
    unfold collectorCheck
    rw [hflag (m + 1)]
    by_cases h : (obs (m + 1)).activeWorkers = 0 <;> simp [h]

/-- C1: in the consume loop under a true shutdown flag, an iteration that
observes zero active workers breaks immediately; otherwise, once more than
60 seconds have passed since the time of the first flagged check, the loop
breaks anyway; hence whenever the observed clock is unbounded the loop
terminates. -/
theorem collector_loop_terminates (obs : Nat → LoopObs)
    (hflag : ∀ n, (obs n).shouldShutdown = true) :
    (∀ n, (obs n).activeWorkers = 0 → exitsB obs n = true) ∧
    ((obs 0).activeWorkers ≠ 0 →
      ∀ n, 1 ≤ n → (obs 0).now + 60 < (obs n).now → exitsB obs n = true) ∧
    ((∀ B, ∃ n, B < (obs n).now) → ∃ n, exitsB obs n = true) := by
  have hzero : ∀ n, (obs n).activeWorkers = 0 → exitsB obs n = true := by
    intro n h
    unfold exitsB collectorCheck
    rw [hflag n]
    simp [h]
  have hdrain : (obs 0).activeWorkers ≠ 0 →
      ∀ n, 1 ≤ n → (obs 0).now + 60 < (obs n).now → exitsB obs n = true := by
    intro hact n hn hlt
    obtain ⟨m, rfl⟩ : ∃ m, n = m + 1 := ⟨n - 1, by omega⟩
    unfold exitsB
    rw [collector_srSeq_const obs hflag hact m]
    unfold collectorCheck
    rw [hflag (m + 1)]
    by_cases h : (obs (m + 1)).activeWorkers = 0
    · simp [h]
    · simp only [h, if_neg, if_false]
      simp
      omega
  refine ⟨hzero, hdrain, ?_⟩
  intro hunb
  by_cases h0 : (obs 0).activeWorkers = 0
  · exact ⟨0, hzero 0 h0⟩
  · obtain ⟨n, hn⟩ := hunb ((obs 0).now + 60)
    have h1 : 1 ≤ n := by
      rcases Nat.eq_zero_or_pos n with h | h
      · subst h; omega
      · exact h
    exact ⟨n, hdrain h0 n h1 hn⟩

/-- C1 witness: a stream in which the flag is already true and no worker is
active breaks at the very first check, through the theorem. -/
theorem collector_loop_terminates_witness :
    exitsB (fun n => { shouldShutdown := true, activeWorkers := 0, now := 5 * n }) 0
      = true :=
  (collector_loop_terminates
      (fun n => { shouldShutdown := true, activeWorkers := 0, now := 5 * n })
      (fun _ => rfl)).1 0 rfl

/-! ## The shutdown coordinator -/

theorem runSteps_all_ok (fails : ShutdownStep → Bool) (l : List ShutdownStep)
    (h : ∀ a ∈ l, fails a = false) : runSteps fails l = (l, true) := by
  induction l with
  | nil => rfl
  | cons a rest ih =>
    have ha : fails a = false := h a (by simp)
    simp [runSteps, ha, ih (fun b hb => h b (by simp [hb]))]

/-- In an execution without handlers, any step listed before an executed
step was itself executed (the statement list being duplicate-free). -/
theorem runSteps_mem_earlier (fails : ShutdownStep → Bool) :
    ∀ (pre post : List ShutdownStep) (a b : ShutdownStep),
      (pre ++ b :: post).Nodup → a ∈ pre →
      b ∈ (runSteps fails (pre ++ b :: post)).1 →
      a ∈ (runSteps fails (pre ++ b :: post)).1 := by
  intro pre
  induction pre with
  | nil => intro post a b _ ha _; exact absurd ha (by simp)
  | cons c pre2 ih =>
    intro post a b hnd ha hb
    rw [List.cons_append] at hnd hb ⊢
    rw [List.nodup_cons] at hnd
    by_cases hc : fails c = true
    · simp only [runSteps, hc, if_true] at hb
      simp only [List.mem_singleton] at hb
      subst hb
      exact absurd (by simp : b ∈ pre2 ++ b :: post) hnd.1
    · rw [Bool.not_eq_true] at hc
      simp only [runSteps, hc, Bool.false_eq_true, if_false] at hb ⊢
      rcases List.mem_cons.mp hb with hb1 | hb2
      · subst hb1
        exact absurd (by simp : b ∈ pre2 ++ b :: post) hnd.1
      · rcases List.mem_cons.mp ha with ha1 | ha2
        · subst ha1; exact List.mem_cons_self _ _
        · exact List.mem_cons_of_mem c (ih post a b hnd.2 ha2 hb2)

/-- A step not in the leading segment is executed exactly when every step
of the leading segment succeeds. -/
theorem runSteps_mem_target (fails : ShutdownStep → Bool) :
    ∀ (l post : List ShutdownStep) (b : ShutdownStep), b ∉ l →
      (b ∈ (runSteps fails (l ++ b :: post)).1 ↔ ∀ a ∈ l, fails a = false) := by
  intro l
  induction l with
  | nil =>
    intro post b _
    constructor
    · intro _ a ha; exact absurd ha (by simp)
    · intro _
      by_cases hfb : fails b = true <;> simp [runSteps, hfb]
  | cons c l2 ih =>
    intro post b hb
    simp only [List.mem_cons, not_or] at hb
    rw [List.cons_append]
    by_cases hc : fails c = true
    · simp only [runSteps, hc, if_true]
      constructor
      · intro hmem
        simp only [List.mem_singleton] at hmem
        exact absurd hmem hb.1
      · intro hall
        have := hall c (by simp)
        rw [this] at hc
        exact absurd hc (by simp)
    · rw [Bool.not_eq_true] at hc
      simp only [runSteps, hc, Bool.false_eq_true, if_false]
      constructor
      · intro hmem a ha
        rcases List.mem_cons.mp ha with h1 | h2
        · subst h1; exact hc
        · rcases List.mem_cons.mp hmem with hm1 | hm2
          · exact absurd hm1 hb.1
          · exact (ih post b hb.2).mp hm2 a h2
      · intro hall
        exact List.mem_cons_of_mem c
          ((ih post b hb.2).mpr (fun a ha => hall a (by simp [ha])))

theorem waitWorker_injective : Function.Injective ShutdownStep.waitWorker := by
  intro a b h
  injection h

theorem shutdownSteps_decomp_flag (k : Nat) :
    shutdownSteps k =
      (ShutdownStep.signalWorkers :: (List.range k).map ShutdownStep.waitWorker)
        ++ ShutdownStep.setShutdownFlag ::
          [ShutdownStep.joinCollector, ShutdownStep.stopBroker] := by
  simp [shutdownSteps]

theorem shutdownSteps_decomp_join (k : Nat) :
    shutdownSteps k =
      (ShutdownStep.signalWorkers ::
          ((List.range k).map ShutdownStep.waitWorker ++ [ShutdownStep.setShutdownFlag]))
        ++ ShutdownStep.joinCollector :: [ShutdownStep.stopBroker] := by
  simp [shutdownSteps]

theorem shutdownSteps_decomp_stop (k : Nat) :
    shutdownSteps k =
      (ShutdownStep.signalWorkers ::
          ((List.range k).map ShutdownStep.waitWorker ++
            [ShutdownStep.setShutdownFlag, ShutdownStep.joinCollector]))
        ++ ShutdownStep.stopBroker :: [] := by
  simp [shutdownSteps]

theorem shutdownSteps_nodup (k : Nat) : (shutdownSteps k).Nodup := by
  unfold shutdownSteps
  refine List.Nodup.cons ?_ (List.Nodup.append ?_ ?_ ?_)
  · simp
  · exact (List.nodup_range k).map waitWorker_injective
  · simp
  · intro x hx hy
    rcases List.mem_map.mp hx with ⟨i, _, rfl⟩
    simp at hy

/-- C2: the shutdown callable attempts its steps in the fixed source order -
signal the workers, wait on every worker process, set the shared flag, join
the Collector, stop the broker - and in every execution (even one where a
step raises) the flag step is reached only after every worker wait, the
collector join only after the flag, and the broker stop only after the
join. -/
theorem shutdown_flag_after_worker_waits (k : Nat) (fails : ShutdownStep → Bool) :
    ((∀ a, fails a = false) →
      (shutdown k fails).1 =
        ShutdownStep.signalWorkers ::
          ((List.range k).map ShutdownStep.waitWorker ++
            [ShutdownStep.setShutdownFlag, ShutdownStep.joinCollector,
              ShutdownStep.stopBroker])) ∧
    (ShutdownStep.setShutdownFlag ∈ (shutdown k fails).1 →
      ShutdownStep.signalWorkers ∈ (shutdown k fails).1 ∧
      ∀ i, i < k → ShutdownStep.waitWorker i ∈ (shutdown k fails).1) ∧
    (ShutdownStep.joinCollector ∈ (shutdown k fails).1 →
      ShutdownStep.setShutdownFlag ∈ (shutdown k fails).1) ∧
    (ShutdownStep.stopBroker ∈ (shutdown k fails).1 →
      ShutdownStep.joinCollector ∈ (shutdown k fails).1) := by
  refine ⟨?_, ?_, ?_, ?_⟩
  · intro hall
    show (runSteps fails (shutdownSteps k)).1 = _
    rw [runSteps_all_ok fails _ (fun a _ => hall a)]
    rfl
  · intro hmem
    have hnd := shutdownSteps_nodup k
    rw [shutdownSteps_decomp_flag k] at hnd
    constructor
    · show ShutdownStep.signalWorkers ∈ (runSteps fails (shutdownSteps k)).1
      rw [shutdownSteps_decomp_flag k]
      refine runSteps_mem_earlier fails _ _ _ _ hnd (by simp) ?_
      rw [← shutdownSteps_decomp_flag k]
      exact hmem
    · intro i hi
      show ShutdownStep.waitWorker i ∈ (runSteps fails (shutdownSteps k)).1
      rw [shutdownSteps_decomp_flag k]
      refine runSteps_mem_earlier fails _ _ _ _ hnd ?_ ?_
      · simp only [List.mem_cons, List.mem_map]
        exact Or.inr ⟨i, List.mem_range.mpr hi, rfl⟩
      · rw [← shutdownSteps_decomp_flag k]
        exact hmem
  · intro hmem
    have hnd := shutdownSteps_nodup k
    rw [shutdownSteps_decomp_join k] at hnd
    show ShutdownStep.setShutdownFlag ∈ (runSteps fails (shutdownSteps k)).1
    rw [shutdownSteps_decomp_join k]
    refine runSteps_mem_earlier fails _ _ _ _ hnd (by simp) ?_
    rw [← shutdownSteps_decomp_join k]
    exact hmem
  · intro hmem
    have hnd := shutdownSteps_nodup k
    rw [shutdownSteps_decomp_stop k] at hnd
    show ShutdownStep.joinCollector ∈ (runSteps fails (shutdownSteps k)).1
    rw [shutdownSteps_decomp_stop k]
    refine runSteps_mem_earlier fails _ _ _ _ hnd (by simp) ?_
    rw [← shutdownSteps_decomp_stop k]
    exact hmem

/-- C2 witness: with two workers and no failing step, the flag step is in
the executed trace, and through the theorem so are the signal and both
worker waits. -/
theorem shutdown_flag_after_worker_waits_witness :
    ShutdownStep.signalWorkers ∈ (shutdown 2 (fun _ => false)).1 ∧
    ShutdownStep.waitWorker 0 ∈ (shutdown 2 (fun _ => false)).1 ∧
    ShutdownStep.waitWorker 1 ∈ (shutdown 2 (fun _ => false)).1 := by
  have h := (shutdown_flag_after_worker_waits 2 (fun _ => false)).2.1 (by decide)
  exact ⟨h.1, h.2 0 (by decide), h.2 1 (by decide)⟩

/-- C5 counterexample: the claim says a failure in an earlier step does not
prevent steps 3 to 5 from running, but when signalling the workers raises,
the execution ends at that step and in particular the shutdown flag is
never set. -/
theorem shutdown_stops_at_failed_signal :
    shutdown 1 (fun a => a == ShutdownStep.signalWorkers) =
      ([ShutdownStep.signalWorkers], false) ∧
    ShutdownStep.setShutdownFlag ∉
      (shutdown 1 (fun a => a == ShutdownStep.signalWorkers)).1 := by decide

/-- C5 amended: the shutdown callable has no exception handling, so a
raising step aborts the rest of the sequence; the shutdown flag is set
exactly when signalling the workers and every worker wait succeed. -/
theorem shutdown_failure_propagates (k : Nat) (fails : ShutdownStep → Bool) :
    ShutdownStep.setShutdownFlag ∈ (shutdown k fails).1 ↔
      (fails ShutdownStep.signalWorkers = false ∧
        ∀ i, i < k → fails (ShutdownStep.waitWorker i) = false) := by
  have hnotmem : ShutdownStep.setShutdownFlag ∉
      (ShutdownStep.signalWorkers :: (List.range k).map ShutdownStep.waitWorker) := by
    simp
  show ShutdownStep.setShutdownFlag ∈ (runSteps fails (shutdownSteps k)).1 ↔ _
  rw [shutdownSteps_decomp_flag k, runSteps_mem_target fails _ _ _ hnotmem]
  constructor
  · intro h
    refine ⟨h _ (by simp), fun i hi => h _ ?_⟩
    simp only [List.mem_cons, List.mem_map]
    exact Or.inr ⟨i, List.mem_range.mpr hi, rfl⟩
  · intro h a ha
    rcases List.mem_cons.mp ha with h1 | h2
    · subst h1; exact h.1
    · rcases List.mem_map.mp h2 with ⟨i, hi, rfl⟩
      exact h.2 i (List.mem_range.mp hi)

/-- C5 witness: with two workers and no failing step the flag is set,
through the amended theorem. -/
theorem shutdown_failure_propagates_witness :
    ShutdownStep.setShutdownFlag ∈ (shutdown 2 (fun _ => false)).1 :=
  (shutdown_failure_propagates 2 (fun _ => false)).mpr ⟨rfl, fun _ _ => rfl⟩

/-! ## Broker startup and worker fleet launch -/

/-- C7 counterexample: the claim says launch fails fatally when the broker
never becomes reachable within the five bounded health checks, but with the
broker process started and every health check returning False the startup
phase raises nothing: it performs its five sleeps and still constructs and
returns the executor. -/
theorem launch_ok_despite_unreachable_broker :
    launch_broker_phase true (fun _ => false) =
      Except.ok { sleeps := 5, executorReturned := true } := by rfl

/-- C7 amended: the launch raises only when the broker process cannot be
started; when it starts, the bounded health loop runs its five checks,
sleeping half a second after each failed one, and the executor is
constructed and returned regardless of whether the broker ever became
reachable. -/
theorem launch_broker_phase_amended (redisLaunched : Bool) (check : Nat → Bool) :
    (redisLaunched = false →
      launch_broker_phase redisLaunched check =
        Except.error "Failed to launch Redis") ∧
    (redisLaunched = true →
      launch_broker_phase redisLaunched check =
        Except.ok { sleeps := redisHealthSleeps check 5, executorReturned := true }) := by
  constructor <;> intro h <;> simp [launch_broker_phase, h]

/-- C7 witness: a broker that becomes reachable after two failed checks -
launch returns the executor after two sleeps, through the amended
theorem. -/
theorem launch_broker_phase_amended_witness :
    launch_broker_phase true (fun i => decide (2 ≤ i)) =
      Except.ok { sleeps := 2, executorReturned := true } := by
  have h := (launch_broker_phase_amended true (fun i => decide (2 ≤ i))).2 rfl
  exact h.trans (by rfl)

/-- C8: the launcher starts exactly one worker process per allocated node,
with a requested process count equal to the node core count except on the
node hosting the coordinator, where it is max(1, cores - 2); in particular
a 4-core coordinator-host node yields 2 and an 8-core worker-only node
yields 8. -/
theorem worker_procs_per_node (nodes : List PbsNode) :
    (launch_worker_procs nodes).length = nodes.length ∧
    (∀ (i : Nat) (node : PbsNode), nodes[i]? = some node →
      (launch_worker_procs nodes)[i]? =
        some (node.offset,
          if node.is_main then max 1 (node.num_cores - 2) else node.num_cores)) ∧
    launch_worker_procs
        [{ num_cores := 4, is_main := true, offset := 0 },
          { num_cores := 8, is_main := false, offset := 1 }] = [(0, 2), (1, 8)] := by
  refine ⟨by simp [launch_worker_procs], ?_, by rfl⟩
  intro i node h
  simp [launch_worker_procs, List.getElem?_map, h, node_nprocs]

/-- C8 witness: the coordinator-host 4-core node gets 2 worker processes,
through the theorem. -/
theorem worker_procs_per_node_witness :
    (launch_worker_procs [{ num_cores := 4, is_main := true, offset := 0 }])[0]? =
      some (0, 2) := by
  have h := (worker_procs_per_node
      [{ num_cores := 4, is_main := true, offset := 0 }]).2.1 0
    { num_cores := 4, is_main := true, offset := 0 } (by rfl)
  exact h.trans (by rfl)

/-! ## The per-event handler and the worker-liveness view -/

theorem handle_task_state {σ : Type} (stateEvent : σ → CeleryRawEvent → σ)
    (getTask : σ → String → Option CeleryTask)
    (name user : String) (now : Nat) (parentId : Option String)
    (st : σ) (e : CeleryRawEvent) :
    (handle_task stateEvent getTask name user now parentId st e).1 =
      stateEvent st e := by
  dsimp only [handle_task]
  split
  · rfl
  · split <;> rfl

theorem processEvents_state {σ : Type} (stateEvent : σ → CeleryRawEvent → σ)
    (getTask : σ → String → Option CeleryTask)
    (name user : String) (now : Nat) (parentId : Option String)
    (es : List CeleryRawEvent) :
    ∀ st : σ, (processEvents stateEvent getTask name user now parentId st es).1 =
      es.foldl stateEvent st := by
  induction es with
  | nil => intro st; rfl
  | cons e rest ih =>
    intro st
    simp only [processEvents, List.foldl_cons]
    rw [ih, handle_task_state]

/-- C10: every received broker event is applied to the in-memory tracker
before the task-type filter runs: the tracker state after a call always
equals the updated state; a non-task event (a worker heartbeat, say) is
discarded from the log with the tracker nonetheless updated; and a whole
event stream folds the tracker update over every event regardless of type,
so the worker-liveness view the drain decision reads reflects the
discarded events. -/
theorem tracker_updated_before_filter {σ : Type}
    (stateEvent : σ → CeleryRawEvent → σ)
    (getTask : σ → String → Option CeleryTask)
    (name user : String) (now : Nat) (parentId : Option String) :
    (∀ (st : σ) e,
      (handle_task stateEvent getTask name user now parentId st e).1 =
        stateEvent st e) ∧
    (∀ (st : σ) e, pyStartsWith e.type "task-".toList = false →
      handle_task stateEvent getTask name user now parentId st e =
        (stateEvent st e, HandleOutcome.skippedNonTask)) ∧
    (∀ (st : σ) es,
      (processEvents stateEvent getTask name user now parentId st es).1 =
        es.foldl stateEvent st) := by
  refine ⟨fun st e => handle_task_state stateEvent getTask name user now parentId st e,
    ?_, fun st es => processEvents_state stateEvent getTask name user now parentId es st⟩
  intro st e ht
  dsimp only [handle_task]
  rw [ht]
  simp

/-- C10 witness: a worker-heartbeat event is skipped by the filter yet
advances the tracker state, through the theorem. -/
theorem tracker_updated_before_filter_witness :
    handle_task (fun (n : Nat) (_ : CeleryRawEvent) => n + 1) (fun _ _ => none)
        "job" "user" 5 none 0 { type := "worker-heartbeat".toList, uuid := "w1" } =
      (1, HandleOutcome.skippedNonTask) :=
  (tracker_updated_before_filter (fun (n : Nat) (_ : CeleryRawEvent) => n + 1)
      (fun _ _ => none) "job" "user" 5 none).2.1 0
    { type := "worker-heartbeat".toList, uuid := "w1" } (by decide)

end DEA
